import Mathlib

/-
Verification of the Mergington High School activities backend
(src/src/app.py, src/src/models.py).

The relational store is modelled shallowly: the two tables (activity,
participant) become lists of records kept in insertion order, together
with the next auto-increment primary key for each table.  Each HTTP
handler becomes a function from a store to a result paired with the
store after the call; SQL `select ... .first()` becomes `List.find?`,
`select ... .all()` with a where-clause becomes `List.filter`,
`session.add` appends a row, and `session.delete` removes the row that
was found (the first row matching the where-clause).
-/

namespace Mergington

/-- A row of the `activity` table (models.py, class Activity). -/
structure Activity where
  aid : Nat
  name : String
  description : String
  schedule : String
  max_participants : Nat
  deriving DecidableEq

/-- A row of the `participant` table (models.py, class Participant). -/
structure Participant where
  pid : Nat
  email : String
  activity_id : Nat
  deriving DecidableEq

/-- The SQLite database: both tables in insertion order plus the next
auto-increment primary key of each. -/
structure Store where
  activities : List Activity
  participants : List Participant
  nextAid : Nat
  nextPid : Nat
  deriving DecidableEq

/-- Errors raised by the handlers via HTTPException: status 404 becomes
`notFound`, status 400 becomes `conflict`; the string is the `detail`. -/
inductive ApiError where
  | notFound (detail : String)
  | conflict (detail : String)
  deriving DecidableEq

/-- `session.exec(select(Activity).where(Activity.name == activity_name)).first()`. -/
def findActivity (s : Store) (activity_name : String) : Option Activity :=
  s.activities.find? (fun a => a.name == activity_name)

/-- `session.exec(select(Participant).where(Participant.activity_id == aid)).all()`. -/
def participantsOf (s : Store) (aid : Nat) : List Participant :=
  s.participants.filter (fun p => p.activity_id == aid)

/-- The value one entry of the `get_activities` result dict holds. -/
structure ActivityView where
  description : String
  schedule : String
  max_participants : Nat
  participants : List String
  deriving DecidableEq

/-- Handler `get_activities` (app.py lines 123-137): builds the mapping
from activity name to its view; it only reads, so the store component of
the result is the input store. -/
def get_activities (s : Store) : List (String × ActivityView) × Store :=
  (s.activities.map (fun a =>
    (a.name,
      { description := a.description
        schedule := a.schedule
        max_participants := a.max_participants
        participants := (participantsOf s a.aid).map (fun p => p.email) })), s)

/-- Handler `signup_for_activity` (app.py lines 140-159). -/
def signup_for_activity (s : Store) (activity_name email : String) :
    Except ApiError String × Store :=
  match findActivity s activity_name with
  | none => (Except.error (ApiError.notFound "Activity not found"), s)
  | some activity =>
    let participants := participantsOf s activity.aid
    if participants.any (fun p => p.email == email) then
      (Except.error (ApiError.conflict "Student is already signed up"), s)
    else if activity.max_participants ≤ participants.length then
      (Except.error (ApiError.conflict "Activity is full"), s)
    else
      (Except.ok ("Signed up " ++ email ++ " for " ++ activity_name),
       { s with participants := s.participants ++ [⟨s.nextPid, email, activity.aid⟩],
                nextPid := s.nextPid + 1 })

/-- Handler `unregister_from_activity` (app.py lines 162-177): the row
deleted is the one `.first()` returned, i.e. the first row matching the
where-clause, hence `List.eraseP`. -/
def unregister_from_activity (s : Store) (activity_name email : String) :
    Except ApiError String × Store :=
  match findActivity s activity_name with
  | none => (Except.error (ApiError.notFound "Activity not found"), s)
  | some activity =>
    let isMatch := fun (p : Participant) => p.activity_id == activity.aid && p.email == email
    match s.participants.find? isMatch with
    | none => (Except.error (ApiError.conflict "Student is not signed up for this activity"), s)
    | some _ =>
      (Except.ok ("Unregistered " ++ email ++ " from " ++ activity_name),
       { s with participants := s.participants.eraseP isMatch })

/-- One entry of the `seed_activities` dict in `init_db_and_seed`. -/
structure SeedInfo where
  name : String
  description : String
  schedule : String
  max_participants : Nat
  participants : List String

/-- The literal `seed_activities` catalog (app.py lines 44-99), in the
insertion order of the Python dict. -/
def seed_activities : List SeedInfo :=
  [⟨"Chess Club",
    "Learn strategies and compete in chess tournaments",
    "Fridays, 3:30 PM - 5:00 PM", 12,
    ["michael@mergington.edu", "daniel@mergington.edu"]⟩,
   ⟨"Programming Class",
    "Learn programming fundamentals and build software projects",
    "Tuesdays and Thursdays, 3:30 PM - 4:30 PM", 20,
    ["emma@mergington.edu", "sophia@mergington.edu"]⟩,
   ⟨"Gym Class",
    "Physical education and sports activities",
    "Mondays, Wednesdays, Fridays, 2:00 PM - 3:00 PM", 30,
    ["john@mergington.edu", "olivia@mergington.edu"]⟩,
   ⟨"Soccer Team",
    "Join the school soccer team and compete in matches",
    "Tuesdays and Thursdays, 4:00 PM - 5:30 PM", 22,
    ["liam@mergington.edu", "noah@mergington.edu"]⟩,
   ⟨"Basketball Team",
    "Practice and play basketball with the school team",
    "Wednesdays and Fridays, 3:30 PM - 5:00 PM", 15,
    ["ava@mergington.edu", "mia@mergington.edu"]⟩,
   ⟨"Art Club",
    "Explore your creativity through painting and drawing",
    "Thursdays, 3:30 PM - 5:00 PM", 15,
    ["amelia@mergington.edu", "harper@mergington.edu"]⟩,
   ⟨"Drama Club",
    "Act, direct, and produce plays and performances",
    "Mondays and Wednesdays, 4:00 PM - 5:30 PM", 20,
    ["ella@mergington.edu", "scarlett@mergington.edu"]⟩,
   ⟨"Math Club",
    "Solve challenging problems and participate in math competitions",
    "Tuesdays, 3:30 PM - 4:30 PM", 10,
    ["james@mergington.edu", "benjamin@mergington.edu"]⟩,
   ⟨"Debate Team",
    "Develop public speaking and argumentation skills",
    "Fridays, 4:00 PM - 5:30 PM", 12,
    ["charlotte@mergington.edu", "henry@mergington.edu"]⟩]

/-- `participant = Participant(email=email, activity_id=activity.id);
session.add(participant)` inside the seed loop. -/
def addParticipantRow (st : Store) (aid : Nat) (email : String) : Store :=
  { st with participants := st.participants ++ [⟨st.nextPid, email, aid⟩],
            nextPid := st.nextPid + 1 }

/-- The body of `for name, info in seed_activities.items()`: insert the
activity row, then its initial participants. -/
def seedOne (st : Store) (info : SeedInfo) : Store :=
  let aid := st.nextAid
  let st1 : Store :=
    { st with
        activities := st.activities ++
          [⟨aid, info.name, info.description, info.schedule, info.max_participants⟩],
        nextAid := st.nextAid + 1 }
  info.participants.foldl (fun s2 em => addParticipantRow s2 aid em) st1

/-- `init_db_and_seed` (app.py lines 37-112): seeds the catalog only when
`select(Activity).first()` returns no row, i.e. the activity table is
empty. -/
def init_db_and_seed (s : Store) : Store :=
  if s.activities.isEmpty then seed_activities.foldl seedOne s else s

/-- A database file that was just created: both tables empty, SQLite
auto-increment keys starting at 1. -/
def emptyStore : Store := ⟨[], [], 1, 1⟩

/-- The store right after startup of a fresh instance. -/
def seededStore : Store := init_db_and_seed emptyStore

/-- One API call that may mutate the store. -/
inductive Op where
  | signup (activity_name email : String)
  | unregister (activity_name email : String)

/-- The store after serving one call (a failing call leaves the store as
the handler returned it, which is the input store). -/
def applyOp (s : Store) (op : Op) : Store :=
  match op with
  | Op.signup n e => (signup_for_activity s n e).snd
  | Op.unregister n e => (unregister_from_activity s n e).snd

/-- The store after serving a sequence of calls. -/
def run (s : Store) (ops : List Op) : Store := ops.foldl applyOp s

/-- The email `e` holds an enrollment record for the activity with id `aid`. -/
def Enrolled (s : Store) (aid : Nat) (e : String) : Prop :=
  ∃ p ∈ participantsOf s aid, p.email = e

instance (s : Store) (aid : Nat) (e : String) : Decidable (Enrolled s aid e) := by
  unfold Enrolled
  infer_instance

lemma signup_of_find_none (s : Store) (n e : String) (h : findActivity s n = none) :
    signup_for_activity s n e = (Except.error (ApiError.notFound "Activity not found"), s) := by
  simp [signup_for_activity, h]

lemma signup_of_dup (s : Store) (n e : String) (a : Activity)
    (h : findActivity s n = some a) (hd : Enrolled s a.aid e) :
    signup_for_activity s n e =
      (Except.error (ApiError.conflict "Student is already signed up"), s) := by
  obtain ⟨p, hp, he⟩ := hd
  have hany : (participantsOf s a.aid).any (fun p => p.email == e) = true :=
    List.any_eq_true.mpr ⟨p, hp, by simp [he]⟩
  simp [signup_for_activity, h, hany]

lemma signup_of_full (s : Store) (n e : String) (a : Activity)
    (h : findActivity s n = some a) (hnd : ¬ Enrolled s a.aid e)
    (hf : a.max_participants ≤ (participantsOf s a.aid).length) :
    signup_for_activity s n e =
      (Except.error (ApiError.conflict "Activity is full"), s) := by
  have hany : (participantsOf s a.aid).any (fun p => p.email == e) = false := by
    rw [List.any_eq_false]
    intro p hp hpe
    exact hnd ⟨p, hp, by simpa using hpe⟩
  simp [signup_for_activity, h, hany, hf]

lemma signup_of_ok (s : Store) (n e : String) (a : Activity)
    (h : findActivity s n = some a) (hnd : ¬ Enrolled s a.aid e)
    (hlt : (participantsOf s a.aid).length < a.max_participants) :
    signup_for_activity s n e =
      (Except.ok ("Signed up " ++ e ++ " for " ++ n),
       { s with participants := s.participants ++ [⟨s.nextPid, e, a.aid⟩],
                nextPid := s.nextPid + 1 }) := by
  have hany : (participantsOf s a.aid).any (fun p => p.email == e) = false := by
    rw [List.any_eq_false]
    intro p hp hpe
    exact hnd ⟨p, hp, by simpa using hpe⟩
  have hnle : ¬ a.max_participants ≤ (participantsOf s a.aid).length :=
    Nat.not_le.mpr hlt
  simp [signup_for_activity, h, hany, hnle]

/-- Inversion: a successful signup pins down every check and the new store. -/
lemma signup_ok_inv (s : Store) (n e m : String)
    (h : (signup_for_activity s n e).fst = Except.ok m) :
    ∃ a, findActivity s n = some a ∧ ¬ Enrolled s a.aid e ∧
      (participantsOf s a.aid).length < a.max_participants ∧
      signup_for_activity s n e =
        (Except.ok ("Signed up " ++ e ++ " for " ++ n),
         { s with participants := s.participants ++ [⟨s.nextPid, e, a.aid⟩],
                  nextPid := s.nextPid + 1 }) := by
  cases hfa : findActivity s n with
  | none => rw [signup_of_find_none s n e hfa] at h; exact absurd h (by simp)
  | some a =>
    by_cases hd : Enrolled s a.aid e
    · rw [signup_of_dup s n e a hfa hd] at h; exact absurd h (by simp)
    · by_cases hf : a.max_participants ≤ (participantsOf s a.aid).length
      · rw [signup_of_full s n e a hfa hd hf] at h; exact absurd h (by simp)
      · exact ⟨a, rfl, hd, Nat.not_le.mp hf,
          signup_of_ok s n e a hfa hd (Nat.not_le.mp hf)⟩

/-- Either a signup fails and returns the store unchanged, or it appends
exactly the one new participant row and bumps the key counter. -/
lemma signup_snd_cases (s : Store) (n e : String) :
    (signup_for_activity s n e).snd = s ∨
    ∃ a, findActivity s n = some a ∧ ¬ Enrolled s a.aid e ∧
      (participantsOf s a.aid).length < a.max_participants ∧
      (signup_for_activity s n e).snd =
        { s with participants := s.participants ++ [⟨s.nextPid, e, a.aid⟩],
                 nextPid := s.nextPid + 1 } := by
  cases hfa : findActivity s n with
  | none => exact Or.inl (by rw [signup_of_find_none s n e hfa])
  | some a =>
    by_cases hd : Enrolled s a.aid e
    · exact Or.inl (by rw [signup_of_dup s n e a hfa hd])
    · by_cases hf : a.max_participants ≤ (participantsOf s a.aid).length
      · exact Or.inl (by rw [signup_of_full s n e a hfa hd hf])
      · exact Or.inr ⟨a, rfl, hd, Nat.not_le.mp hf,
          by rw [signup_of_ok s n e a hfa hd (Nat.not_le.mp hf)]⟩

lemma unregister_of_find_none (s : Store) (n e : String) (h : findActivity s n = none) :
    unregister_from_activity s n e =
      (Except.error (ApiError.notFound "Activity not found"), s) := by
  simp [unregister_from_activity, h]

lemma enrolled_iff_find_isSome (s : Store) (aid : Nat) (e : String) :
    Enrolled s aid e ↔
      (s.participants.find? (fun p => p.activity_id == aid && p.email == e)).isSome := by
  rw [List.find?_isSome]
  constructor
  · rintro ⟨p, hp, he⟩
    have := List.mem_filter.mp hp
    exact ⟨p, this.1, by simp [he, by simpa using this.2]⟩
  · rintro ⟨p, hp, hm⟩
    have hm2 := hm
    simp only [Bool.and_eq_true, beq_iff_eq] at hm2
    exact ⟨p, List.mem_filter.mpr ⟨hp, by simp [hm2.1]⟩, hm2.2⟩

lemma unregister_of_absent (s : Store) (n e : String) (a : Activity)
    (h : findActivity s n = some a) (hn : ¬ Enrolled s a.aid e) :
    unregister_from_activity s n e =
      (Except.error (ApiError.conflict "Student is not signed up for this activity"), s) := by
  have hfind : s.participants.find?
      (fun p => p.activity_id == a.aid && p.email == e) = none := by
    rw [← Option.not_isSome_iff_eq_none, ← enrolled_iff_find_isSome]
    exact hn
  simp [unregister_from_activity, h, hfind]

lemma unregister_of_enrolled (s : Store) (n e : String) (a : Activity)
    (h : findActivity s n = some a) (he : Enrolled s a.aid e) :
    unregister_from_activity s n e =
      (Except.ok ("Unregistered " ++ e ++ " from " ++ n),
       { s with participants :=
           s.participants.eraseP (fun p => p.activity_id == a.aid && p.email == e) }) := by
  have hsome : (s.participants.find?
      (fun p => p.activity_id == a.aid && p.email == e)).isSome :=
    (enrolled_iff_find_isSome s a.aid e).mp he
  obtain ⟨p₀, hp₀⟩ := Option.isSome_iff_exists.mp hsome
  simp [unregister_from_activity, h, hp₀]

/-- Either an unregister fails and returns the store unchanged, or it
erases the first row matching the activity id and email. -/
lemma unregister_snd_cases (s : Store) (n e : String) :
    (unregister_from_activity s n e).snd = s ∨
    ∃ a, findActivity s n = some a ∧ Enrolled s a.aid e ∧
      (unregister_from_activity s n e).snd =
        { s with participants :=
            s.participants.eraseP (fun p => p.activity_id == a.aid && p.email == e) } := by
  cases hfa : findActivity s n with
  | none => exact Or.inl (by rw [unregister_of_find_none s n e hfa])
  | some a =>
    by_cases he : Enrolled s a.aid e
    · exact Or.inr ⟨a, rfl, he, by rw [unregister_of_enrolled s n e a hfa he]⟩
    · exact Or.inl (by rw [unregister_of_absent s n e a hfa he])

/-- No two rows of the activity table share a primary key (SQLite enforces
this for the `id` column; the model carries it as an invariant). -/
def AidInj (s : Store) : Prop :=
  ∀ a ∈ s.activities, ∀ b ∈ s.activities, a.aid = b.aid → a = b

/-- Every activity's roster is within its capacity. -/
def CapOK (s : Store) : Prop :=
  ∀ a ∈ s.activities, (participantsOf s a.aid).length ≤ a.max_participants

/-- No two rows of the participant table share (activity_id, email). -/
def KeysOnce (s : Store) : Prop :=
  s.participants.Pairwise
    (fun p q => ¬(p.activity_id = q.activity_id ∧ p.email = q.email))

/-- The combined store invariant maintained by the enrollment handlers. -/
def Inv (s : Store) : Prop := AidInj s ∧ CapOK s ∧ KeysOnce s

lemma findActivity_mem {s : Store} {n : String} {a : Activity}
    (h : findActivity s n = some a) : a ∈ s.activities :=
  List.mem_of_find?_eq_some h

lemma Inv_signup (s : Store) (n e : String) (h : Inv s) :
    Inv (signup_for_activity s n e).snd := by
  rcases signup_snd_cases s n e with hs | ⟨a, hfa, hnd, hlt, hs⟩
  · rw [hs]; exact h
  · rw [hs]
    obtain ⟨hinj, hcap, hkeys⟩ := h
    have ha : a ∈ s.activities := findActivity_mem hfa
    refine ⟨?_, ?_, ?_⟩
    · intro x hx y hy hxy
      exact hinj x hx y hy hxy
    · intro b hb
      have expand :
          participantsOf
            { s with participants := s.participants ++ [⟨s.nextPid, e, a.aid⟩],
                     nextPid := s.nextPid + 1 } b.aid
            = participantsOf s b.aid ++
              List.filter (fun p => p.activity_id == b.aid) [⟨s.nextPid, e, a.aid⟩] := by
        simp [participantsOf, List.filter_append]
      rw [expand]
      by_cases hab : a.aid = b.aid
      · have hba : b = a := hinj b hb a ha hab.symm
        subst hba
        have : List.filter (fun p => p.activity_id == b.aid)
            ([⟨s.nextPid, e, b.aid⟩] : List Participant) = [⟨s.nextPid, e, b.aid⟩] := by
          simp
        rw [this, List.length_append]
        simpa using hlt
      · have : List.filter (fun p => p.activity_id == b.aid)
            ([⟨s.nextPid, e, a.aid⟩] : List Participant) = [] := by
          simp [hab]
        rw [this, List.append_nil]
        exact hcap b hb
    · show List.Pairwise _ (s.participants ++ [(⟨s.nextPid, e, a.aid⟩ : Participant)])
      rw [List.pairwise_append]
      refine ⟨hkeys, List.pairwise_singleton _ _, ?_⟩
      intro x hx y hy
      have hy' : y = (⟨s.nextPid, e, a.aid⟩ : Participant) := by simpa using hy
      subst hy'
      rintro ⟨h1, h2⟩
      exact hnd ⟨x, List.mem_filter.mpr ⟨hx, by simp [h1]⟩, h2⟩

lemma Inv_unregister (s : Store) (n e : String) (h : Inv s) :
    Inv (unregister_from_activity s n e).snd := by
  rcases unregister_snd_cases s n e with hs | ⟨a, hfa, he, hs⟩
  · rw [hs]; exact h
  · rw [hs]
    obtain ⟨hinj, hcap, hkeys⟩ := h
    have hsub : (s.participants.eraseP
        (fun p => p.activity_id == a.aid && p.email == e)).Sublist s.participants :=
      List.eraseP_sublist _
    refine ⟨hinj, ?_, List.Pairwise.sublist hsub hkeys⟩
    intro b hb
    have hfs : (participantsOf
        { s with participants :=
            s.participants.eraseP (fun p => p.activity_id == a.aid && p.email == e) }
        b.aid).Sublist (participantsOf s b.aid) :=
      List.Sublist.filter _ hsub
    exact le_trans hfs.length_le (hcap b hb)

lemma Inv_applyOp (s : Store) (op : Op) (h : Inv s) : Inv (applyOp s op) := by
  cases op with
  | signup n e => exact Inv_signup s n e h
  | unregister n e => exact Inv_unregister s n e h

lemma Inv_run (s : Store) (ops : List Op) (h : Inv s) : Inv (run s ops) := by
  induction ops generalizing s with
  | nil => exact h
  | cons op t ih => exact ih (applyOp s op) (Inv_applyOp s op h)

lemma seededStore_Inv : Inv seededStore := by
  refine ⟨?_, ?_, ?_⟩
  · unfold AidInj
    decide
  · unfold CapOK
    decide
  · unfold KeysOnce
    decide

/-- In a table whose (activity_id, email) pairs are pairwise distinct, at
most one row matches any given pair. -/
lemma count_key_le_one (l : List Participant)
    (h : l.Pairwise (fun p q => ¬(p.activity_id = q.activity_id ∧ p.email = q.email)))
    (aid : Nat) (e : String) :
    (l.filter (fun p => p.activity_id == aid && p.email == e)).length ≤ 1 := by
  induction l with
  | nil => simp
  | cons x t ih =>
    rw [List.pairwise_cons] at h
    by_cases hx : (x.activity_id == aid && x.email == e) = true
    · rw [List.filter_cons, if_pos hx]
      have hkey : x.activity_id = aid ∧ x.email = e := by
        simpa [Bool.and_eq_true, beq_iff_eq] using hx
      have hnil : t.filter (fun p => p.activity_id == aid && p.email == e) = [] := by
        rw [List.filter_eq_nil_iff]
        intro y hy hyk
        have hyk2 : y.activity_id = aid ∧ y.email = e := by
          simpa [Bool.and_eq_true, beq_iff_eq] using hyk
        exact h.1 y hy ⟨hkey.1.trans hyk2.1.symm, hkey.2.trans hyk2.2.symm⟩
      rw [hnil]
      simp
    · rw [List.filter_cons, if_neg hx]
      exact ih h.2

/-- The Chess Club row as seeded, used to instantiate C1's theorem. -/
def chessClubRow : Activity :=
  ⟨1, "Chess Club", "Learn strategies and compete in chess tournaments",
   "Fridays, 3:30 PM - 5:00 PM", 12⟩

/-- C1: for every activity A and every sequence of signup and unregister
calls starting from a seeded store, the number of Participant records
referencing A never exceeds A's max_participants. -/
theorem capacity_never_exceeded (ops : List Op) (a : Activity)
    (ha : a ∈ (run seededStore ops).activities) :
    (participantsOf (run seededStore ops) a.aid).length ≤ a.max_participants :=
  (Inv_run seededStore ops seededStore_Inv).2.1 a ha

theorem capacity_never_exceeded_witness :
    chessClubRow ∈ (run seededStore [Op.signup "Chess Club" "zoe@mergington.edu"]).activities ∧
    (participantsOf (run seededStore [Op.signup "Chess Club" "zoe@mergington.edu"])
      chessClubRow.aid).length ≤ chessClubRow.max_participants :=
  ⟨by decide,
   capacity_never_exceeded [Op.signup "Chess Club" "zoe@mergington.edu"] chessClubRow
     (by decide)⟩

/-- C2: for every activity id and email, after any sequence of signup and
unregister calls starting from a seeded store, at most one Participant
record exists for that (activity, email) pair. -/
theorem no_duplicate_enrollment (ops : List Op) (aid : Nat) (e : String) :
    ((run seededStore ops).participants.filter
      (fun p => p.activity_id == aid && p.email == e)).length ≤ 1 :=
  count_key_le_one _ (Inv_run seededStore ops seededStore_Inv).2.2 aid e

/-- C3: signup checks its preconditions in order with the first failure
winning: an unknown activity name gives NotFound; otherwise an existing
enrollment of the email gives Conflict (already signed up); otherwise a
roster at or above capacity gives Conflict (activity full); otherwise the
call succeeds and appends exactly one new Participant row linking the
email to the activity. -/
theorem signup_precondition_order (s : Store) (n e : String) :
    (findActivity s n = none →
      signup_for_activity s n e =
        (Except.error (ApiError.notFound "Activity not found"), s)) ∧
    (∀ a, findActivity s n = some a → Enrolled s a.aid e →
      signup_for_activity s n e =
        (Except.error (ApiError.conflict "Student is already signed up"), s)) ∧
    (∀ a, findActivity s n = some a → ¬ Enrolled s a.aid e →
      a.max_participants ≤ (participantsOf s a.aid).length →
      signup_for_activity s n e =
        (Except.error (ApiError.conflict "Activity is full"), s)) ∧
    (∀ a, findActivity s n = some a → ¬ Enrolled s a.aid e →
      (participantsOf s a.aid).length < a.max_participants →
      signup_for_activity s n e =
        (Except.ok ("Signed up " ++ e ++ " for " ++ n),
         { s with participants := s.participants ++ [⟨s.nextPid, e, a.aid⟩],
                  nextPid := s.nextPid + 1 })) :=
  ⟨signup_of_find_none s n e,
   fun a h hd => signup_of_dup s n e a h hd,
   fun a h hnd hf => signup_of_full s n e a h hnd hf,
   fun a h hnd hlt => signup_of_ok s n e a h hnd hlt⟩

/-- A one-activity store whose roster is exactly at capacity. -/
def fullStore : Store :=
  ⟨[⟨1, "Chess", "chess", "Fridays", 1⟩], [⟨1, "bob@mergington.edu", 1⟩], 2, 2⟩

theorem signup_precondition_order_witness :
    signup_for_activity seededStore "Surfing" "zoe@mergington.edu" =
      (Except.error (ApiError.notFound "Activity not found"), seededStore) ∧
    signup_for_activity seededStore "Chess Club" "michael@mergington.edu" =
      (Except.error (ApiError.conflict "Student is already signed up"), seededStore) ∧
    signup_for_activity fullStore "Chess" "zoe@mergington.edu" =
      (Except.error (ApiError.conflict "Activity is full"), fullStore) ∧
    signup_for_activity seededStore "Chess Club" "zoe@mergington.edu" =
      (Except.ok ("Signed up " ++ "zoe@mergington.edu" ++ " for " ++ "Chess Club"),
       { seededStore with
           participants := seededStore.participants ++
             [⟨seededStore.nextPid, "zoe@mergington.edu", 1⟩],
           nextPid := seededStore.nextPid + 1 }) :=
  ⟨(signup_precondition_order seededStore "Surfing" "zoe@mergington.edu").1 (by rfl),
   (signup_precondition_order seededStore "Chess Club" "michael@mergington.edu").2.1
     ⟨1, "Chess Club", "Learn strategies and compete in chess tournaments",
      "Fridays, 3:30 PM - 5:00 PM", 12⟩ (by rfl) (by decide),
   (signup_precondition_order fullStore "Chess" "zoe@mergington.edu").2.2.1
     ⟨1, "Chess", "chess", "Fridays", 1⟩ (by rfl) (by decide) (by decide),
   (signup_precondition_order seededStore "Chess Club" "zoe@mergington.edu").2.2.2
     ⟨1, "Chess Club", "Learn strategies and compete in chess tournaments",
      "Fridays, 3:30 PM - 5:00 PM", 12⟩ (by rfl) (by decide) (by decide)⟩

/-- C4: unregister fails with NotFound when no activity has the given
name; otherwise, when no Participant row matches the (activity, email)
pair, it fails with Conflict (not signed up); otherwise it succeeds and
deletes exactly the matching Participant row, leaving the rest of the
table intact. -/
theorem unregister_precondition_order (s : Store) (n e : String) :
    (findActivity s n = none →
      unregister_from_activity s n e =
        (Except.error (ApiError.notFound "Activity not found"), s)) ∧
    (∀ a, findActivity s n = some a → ¬ Enrolled s a.aid e →
      unregister_from_activity s n e =
        (Except.error (ApiError.conflict "Student is not signed up for this activity"), s)) ∧
    (∀ a, findActivity s n = some a → Enrolled s a.aid e →
      ∃ p₀ l₁ l₂, s.participants = l₁ ++ p₀ :: l₂ ∧
        p₀.activity_id = a.aid ∧ p₀.email = e ∧
        (∀ q ∈ l₁, ¬(q.activity_id = a.aid ∧ q.email = e)) ∧
        unregister_from_activity s n e =
          (Except.ok ("Unregistered " ++ e ++ " from " ++ n),
           { s with participants := l₁ ++ l₂ })) := by
  refine ⟨unregister_of_find_none s n e,
    fun a h hnd => unregister_of_absent s n e a h hnd, ?_⟩
  intro a h he
  obtain ⟨p, hp, hpe⟩ := he
  have hmem : p ∈ s.participants := (List.mem_filter.mp hp).1
  have hpa : p.activity_id = a.aid := by
    simpa using (List.mem_filter.mp hp).2
  have hpred : (fun q => q.activity_id == a.aid && q.email == e) p = true := by
    simp [hpa, hpe]
  obtain ⟨p₀, l₁, l₂, hl₁, hp₀, hsplit, herase⟩ :=
    @List.exists_of_eraseP Participant
      (fun q => q.activity_id == a.aid && q.email == e) s.participants p hmem hpred
  have hp₀a : p₀.activity_id = a.aid ∧ p₀.email = e := by
    simpa [Bool.and_eq_true, beq_iff_eq] using hp₀
  refine ⟨p₀, l₁, l₂, hsplit, hp₀a.1, hp₀a.2, ?_, ?_⟩
  · intro q hq hqk
    exact hl₁ q hq (by simp [hqk.1, hqk.2])
  · rw [unregister_of_enrolled s n e a h ⟨p, hp, hpe⟩, herase]

theorem unregister_precondition_order_witness :
    unregister_from_activity seededStore "Surfing" "zoe@mergington.edu" =
      (Except.error (ApiError.notFound "Activity not found"), seededStore) ∧
    unregister_from_activity seededStore "Chess Club" "zoe@mergington.edu" =
      (Except.error (ApiError.conflict "Student is not signed up for this activity"),
       seededStore) ∧
    (∃ p₀ l₁ l₂, seededStore.participants = l₁ ++ p₀ :: l₂ ∧
      p₀.activity_id = 1 ∧ p₀.email = "daniel@mergington.edu" ∧
      (∀ q ∈ l₁, ¬(q.activity_id = 1 ∧ q.email = "daniel@mergington.edu")) ∧
      unregister_from_activity seededStore "Chess Club" "daniel@mergington.edu" =
        (Except.ok ("Unregistered " ++ "daniel@mergington.edu" ++ " from " ++ "Chess Club"),
         { seededStore with participants := l₁ ++ l₂ })) :=
  ⟨(unregister_precondition_order seededStore "Surfing" "zoe@mergington.edu").1 (by rfl),
   (unregister_precondition_order seededStore "Chess Club" "zoe@mergington.edu").2.1
     ⟨1, "Chess Club", "Learn strategies and compete in chess tournaments",
      "Fridays, 3:30 PM - 5:00 PM", 12⟩ (by rfl) (by decide),
   (unregister_precondition_order seededStore "Chess Club" "daniel@mergington.edu").2.2
     ⟨1, "Chess Club", "Learn strategies and compete in chess tournaments",
      "Fridays, 3:30 PM - 5:00 PM", 12⟩ (by rfl) (by decide)⟩

/-- C5: an invocation of signup or unregister that fails with NotFound or
Conflict returns the store exactly as it was: no Participant row is
created, deleted or modified on the error path. -/
theorem failed_call_frame (s : Store) (n e : String) :
    (∀ err, (signup_for_activity s n e).fst = Except.error err →
      (signup_for_activity s n e).snd = s) ∧
    (∀ err, (unregister_from_activity s n e).fst = Except.error err →
      (unregister_from_activity s n e).snd = s) := by
  constructor
  · intro err herr
    cases hfa : findActivity s n with
    | none => rw [signup_of_find_none s n e hfa]
    | some a =>
      by_cases hd : Enrolled s a.aid e
      · rw [signup_of_dup s n e a hfa hd]
      · by_cases hf : a.max_participants ≤ (participantsOf s a.aid).length
        · rw [signup_of_full s n e a hfa hd hf]
        · exfalso
          rw [signup_of_ok s n e a hfa hd (Nat.not_le.mp hf)] at herr
          exact absurd herr (by simp)
  · intro err herr
    cases hfa : findActivity s n with
    | none => rw [unregister_of_find_none s n e hfa]
    | some a =>
      by_cases he : Enrolled s a.aid e
      · exfalso
        rw [unregister_of_enrolled s n e a hfa he] at herr
        exact absurd herr (by simp)
      · rw [unregister_of_absent s n e a hfa he]

theorem failed_call_frame_witness :
    (signup_for_activity seededStore "Surfing" "zoe@mergington.edu").snd = seededStore ∧
    (unregister_from_activity seededStore "Chess Club" "zoe@mergington.edu").snd =
      seededStore :=
  ⟨(failed_call_frame seededStore "Surfing" "zoe@mergington.edu").1
     (ApiError.notFound "Activity not found") (by rfl),
   (failed_call_frame seededStore "Chess Club" "zoe@mergington.edu").2
     (ApiError.conflict "Student is not signed up for this activity") (by rfl)⟩

lemma seed_fold_participants_activities (emails : List String) (aid : Nat) (st : Store) :
    (emails.foldl (fun s2 em => addParticipantRow s2 aid em) st).activities
      = st.activities := by
  induction emails generalizing st with
  | nil => rfl
  | cons h t ih =>
    rw [List.foldl_cons, ih]
    rfl

lemma seedOne_activities_length (st : Store) (info : SeedInfo) :
    (seedOne st info).activities.length = st.activities.length + 1 := by
  unfold seedOne
  rw [seed_fold_participants_activities]
  simp

lemma seedFold_activities_length (infos : List SeedInfo) (st : Store) :
    (infos.foldl seedOne st).activities.length
      = st.activities.length + infos.length := by
  induction infos generalizing st with
  | nil => simp
  | cons i t ih =>
    rw [List.foldl_cons, ih, seedOne_activities_length, List.length_cons]
    omega

/-- C6: the seeding routine acts only when the activity table is empty:
on an already-populated store it is a no-op, leaving the whole store (in
particular the activity count and every participant list) unchanged, and
running it twice from any starting store equals running it once. -/
theorem seeding_idempotent :
    (∀ s : Store, s.activities ≠ [] → init_db_and_seed s = s) ∧
    (∀ s : Store, init_db_and_seed (init_db_and_seed s) = init_db_and_seed s) := by
  have h1 : ∀ s : Store, s.activities ≠ [] → init_db_and_seed s = s := by
    intro s hs
    unfold init_db_and_seed
    rw [if_neg]
    rw [List.isEmpty_iff]
    exact hs
  refine ⟨h1, ?_⟩
  intro s
  by_cases hs : s.activities = []
  · apply h1
    unfold init_db_and_seed
    rw [if_pos (List.isEmpty_iff.mpr hs)]
    have hlen := seedFold_activities_length seed_activities s
    intro hnil
    rw [hnil, hs] at hlen
    exact absurd hlen (by decide)
  · rw [h1 s hs]
    exact h1 s hs

theorem seeding_idempotent_witness :
    seededStore.activities ≠ [] ∧ init_db_and_seed seededStore = seededStore :=
  ⟨by decide, seeding_idempotent.1 seededStore (by decide)⟩

/-- The listing a freshly seeded store is expected to produce: the 9
seeded activities, in insertion order, each with its description,
schedule, capacity and its two initial participant emails. -/
def expectedSeededListing : List (String × ActivityView) :=
  [("Chess Club",
    ⟨"Learn strategies and compete in chess tournaments",
     "Fridays, 3:30 PM - 5:00 PM", 12,
     ["michael@mergington.edu", "daniel@mergington.edu"]⟩),
   ("Programming Class",
    ⟨"Learn programming fundamentals and build software projects",
     "Tuesdays and Thursdays, 3:30 PM - 4:30 PM", 20,
     ["emma@mergington.edu", "sophia@mergington.edu"]⟩),
   ("Gym Class",
    ⟨"Physical education and sports activities",
     "Mondays, Wednesdays, Fridays, 2:00 PM - 3:00 PM", 30,
     ["john@mergington.edu", "olivia@mergington.edu"]⟩),
   ("Soccer Team",
    ⟨"Join the school soccer team and compete in matches",
     "Tuesdays and Thursdays, 4:00 PM - 5:30 PM", 22,
     ["liam@mergington.edu", "noah@mergington.edu"]⟩),
   ("Basketball Team",
    ⟨"Practice and play basketball with the school team",
     "Wednesdays and Fridays, 3:30 PM - 5:00 PM", 15,
     ["ava@mergington.edu", "mia@mergington.edu"]⟩),
   ("Art Club",
    ⟨"Explore your creativity through painting and drawing",
     "Thursdays, 3:30 PM - 5:00 PM", 15,
     ["amelia@mergington.edu", "harper@mergington.edu"]⟩),
   ("Drama Club",
    ⟨"Act, direct, and produce plays and performances",
     "Mondays and Wednesdays, 4:00 PM - 5:30 PM", 20,
     ["ella@mergington.edu", "scarlett@mergington.edu"]⟩),
   ("Math Club",
    ⟨"Solve challenging problems and participate in math competitions",
     "Tuesdays, 3:30 PM - 4:30 PM", 10,
     ["james@mergington.edu", "benjamin@mergington.edu"]⟩),
   ("Debate Team",
    ⟨"Develop public speaking and argumentation skills",
     "Fridays, 4:00 PM - 5:30 PM", 12,
     ["charlotte@mergington.edu", "henry@mergington.edu"]⟩)]

/-- C7: on a freshly seeded store, listActivities returns exactly the 9
seeded activities with their specified descriptions, schedules,
capacities and two-element initial participant lists; in particular
Chess Club maps to capacity 12 with its two seeded participants. -/
theorem listing_after_fresh_seed :
    (get_activities seededStore).fst = expectedSeededListing ∧
    (get_activities seededStore).fst.length = 9 ∧
    ((get_activities seededStore).fst.lookup "Chess Club" =
      some ⟨"Learn strategies and compete in chess tournaments",
            "Fridays, 3:30 PM - 5:00 PM", 12,
            ["michael@mergington.edu", "daniel@mergington.edu"]⟩) := by
  refine ⟨by decide, by decide, by decide⟩

/-- C9: listActivities is a pure read: the store after the call is the
store before it. -/
theorem get_activities_pure (s : Store) : (get_activities s).snd = s := rfl

/-- Erasing the first row matching `pr` from a table removes exactly one
row from any filter that `pr` implies. -/
lemma length_filter_eraseP (l : List Participant) (pr q : Participant → Bool)
    (hx : ∃ x ∈ l, pr x = true) (himp : ∀ x, pr x = true → q x = true) :
    ((l.eraseP pr).filter q).length + 1 = (l.filter q).length := by
  induction l with
  | nil =>
    obtain ⟨x, hx2, _⟩ := hx
    exact absurd hx2 (List.not_mem_nil x)
  | cons h t ih =>
    by_cases hh : pr h = true
    · rw [List.eraseP_cons_of_pos hh, List.filter_cons, if_pos (himp h hh)]
      rfl
    · rw [List.eraseP_cons_of_neg hh, List.filter_cons, List.filter_cons]
      have hxt : ∃ x ∈ t, pr x = true := by
        obtain ⟨x, hx2, hpx⟩ := hx
        cases List.mem_cons.mp hx2 with
        | inl heq => exact absurd hpx (heq ▸ hh)
        | inr hmem => exact ⟨x, hmem, hpx⟩
      by_cases hq : q h = true
      · rw [if_pos hq, if_pos hq, List.length_cons, List.length_cons, ih hxt]
      · rw [if_neg hq, if_neg hq, ih hxt]

/-- C8: an activity whose roster is exactly at capacity rejects one more
signup of a fresh email with Conflict (activity full); after a successful
unregister of any one enrolled participant, a signup of an email that is
then not enrolled succeeds. -/
theorem full_roster_blocks_until_unregister (s : Store) (n e : String) (a : Activity)
    (hfa : findActivity s n = some a)
    (hfull : (participantsOf s a.aid).length = a.max_participants) :
    (¬ Enrolled s a.aid e →
      (signup_for_activity s n e).fst =
        Except.error (ApiError.conflict "Activity is full")) ∧
    (∀ e', Enrolled s a.aid e' →
      (∃ m, (unregister_from_activity s n e').fst = Except.ok m) ∧
      (¬ Enrolled (unregister_from_activity s n e').snd a.aid e →
        ∃ m₂, (signup_for_activity (unregister_from_activity s n e').snd n e).fst
          = Except.ok m₂)) := by
  constructor
  · intro hnd
    rw [signup_of_full s n e a hfa hnd (le_of_eq hfull.symm)]
  · intro e' he'
    have hunreg := unregister_of_enrolled s n e' a hfa he'
    constructor
    · exact ⟨_, by rw [hunreg]⟩
    · intro hnd2
      have hsnd : (unregister_from_activity s n e').snd =
          { s with participants :=
              s.participants.eraseP (fun p => p.activity_id == a.aid && p.email == e') } := by
        rw [hunreg]
      have hfa2 : findActivity (unregister_from_activity s n e').snd n = some a := by
        rw [hsnd]
        exact hfa
      have hlen : (participantsOf (unregister_from_activity s n e').snd a.aid).length + 1
          = (participantsOf s a.aid).length := by
        rw [hsnd]
        show (((s.participants.eraseP _).filter _).length) + 1 = _
        apply length_filter_eraseP
        · obtain ⟨p, hp, hpe⟩ := he'
          have hm := List.mem_filter.mp hp
          refine ⟨p, hm.1, ?_⟩
          have hpa : p.activity_id = a.aid := by simpa using hm.2
          simp [hpa, hpe]
        · intro x hxp
          have hxp2 : x.activity_id = a.aid ∧ x.email = e' := by
            simpa [Bool.and_eq_true, beq_iff_eq] using hxp
          simp [hxp2.1]
      have hlt : (participantsOf (unregister_from_activity s n e').snd a.aid).length
          < a.max_participants := by omega
      exact ⟨_, by rw [signup_of_ok (unregister_from_activity s n e').snd n e a hfa2 hnd2 hlt]⟩

theorem full_roster_blocks_until_unregister_witness :
    findActivity fullStore "Chess" = some ⟨1, "Chess", "chess", "Fridays", 1⟩ ∧
    (participantsOf fullStore 1).length = 1 ∧
    ((signup_for_activity fullStore "Chess" "zoe@mergington.edu").fst =
      Except.error (ApiError.conflict "Activity is full")) ∧
    ((∃ m, (unregister_from_activity fullStore "Chess" "bob@mergington.edu").fst
        = Except.ok m) ∧
     (¬ Enrolled (unregister_from_activity fullStore "Chess" "bob@mergington.edu").snd 1
         "zoe@mergington.edu" →
       ∃ m₂, (signup_for_activity
         (unregister_from_activity fullStore "Chess" "bob@mergington.edu").snd
         "Chess" "zoe@mergington.edu").fst = Except.ok m₂)) :=
  ⟨by rfl, by decide,
   (full_roster_blocks_until_unregister fullStore "Chess" "zoe@mergington.edu"
      ⟨1, "Chess", "chess", "Fridays", 1⟩ (by rfl) (by decide)).1 (by decide),
   (full_roster_blocks_until_unregister fullStore "Chess" "zoe@mergington.edu"
      ⟨1, "Chess", "chess", "Fridays", 1⟩ (by rfl) (by decide)).2
     "bob@mergington.edu" (by decide)⟩

/-- C10: the duplicate-signup check is scoped to a single activity: a
successful signup for one activity leaves every other activity's roster
unchanged, and in particular does not make a later signup of the same
email for a different activity fail the duplicate check, so one email
can hold enrollment records in several activities at once. -/
theorem duplicate_check_scoped_per_activity (s : Store) (n₁ n₂ e : String)
    (a₁ a₂ : Activity) (m : String)
    (h₁ : findActivity s n₁ = some a₁) (h₂ : findActivity s n₂ = some a₂)
    (hne : a₁.aid ≠ a₂.aid)
    (hok : (signup_for_activity s n₁ e).fst = Except.ok m) :
    participantsOf (signup_for_activity s n₁ e).snd a₂.aid = participantsOf s a₂.aid ∧
    (¬ Enrolled s a₂.aid e →
      (participantsOf s a₂.aid).length < a₂.max_participants →
      ∃ m₂,
        (signup_for_activity (signup_for_activity s n₁ e).snd n₂ e).fst = Except.ok m₂ ∧
        Enrolled (signup_for_activity (signup_for_activity s n₁ e).snd n₂ e).snd a₁.aid e ∧
        Enrolled (signup_for_activity (signup_for_activity s n₁ e).snd n₂ e).snd a₂.aid e) := by
  obtain ⟨a, hfa, hnd, hlt, heq⟩ := signup_ok_inv s n₁ e m hok
  have haa : a = a₁ := by
    rw [h₁] at hfa
    exact (Option.some_inj.mp hfa).symm
  subst haa
  have hsnd : (signup_for_activity s n₁ e).snd =
      { s with participants := s.participants ++ [⟨s.nextPid, e, a.aid⟩],
               nextPid := s.nextPid + 1 } := by
    rw [heq]
  have hroster : participantsOf (signup_for_activity s n₁ e).snd a₂.aid
      = participantsOf s a₂.aid := by
    rw [hsnd]
    show List.filter _ (s.participants ++ [⟨s.nextPid, e, a.aid⟩]) = _
    rw [List.filter_append]
    have : List.filter (fun p => p.activity_id == a₂.aid)
        ([⟨s.nextPid, e, a.aid⟩] : List Participant) = [] := by
      simp [hne]
    rw [this, List.append_nil]
    rfl
  refine ⟨hroster, ?_⟩
  intro hnd₂ hlt₂
  have hfa₂ : findActivity (signup_for_activity s n₁ e).snd n₂ = some a₂ := by
    rw [hsnd]
    exact h₂
  have hnd₂' : ¬ Enrolled (signup_for_activity s n₁ e).snd a₂.aid e := by
    unfold Enrolled
    rw [hroster]
    exact hnd₂
  have hlt₂' : (participantsOf (signup_for_activity s n₁ e).snd a₂.aid).length
      < a₂.max_participants := by
    rw [hroster]
    exact hlt₂
  have hok₂ := signup_of_ok (signup_for_activity s n₁ e).snd n₂ e a₂ hfa₂ hnd₂' hlt₂'
  refine ⟨_, by rw [hok₂], ?_, ?_⟩
  · show Enrolled (signup_for_activity (signup_for_activity s n₁ e).snd n₂ e).snd a.aid e
    rw [hok₂]
    refine ⟨⟨s.nextPid, e, a.aid⟩, ?_, rfl⟩
    apply List.mem_filter.mpr
    refine ⟨?_, by simp⟩
    show _ ∈ (signup_for_activity s n₁ e).snd.participants ++ _
    apply List.mem_append_left
    rw [hsnd]
    show _ ∈ s.participants ++ [(⟨s.nextPid, e, a.aid⟩ : Participant)]
    exact List.mem_append_right _ (List.mem_singleton.mpr rfl)
  · show Enrolled (signup_for_activity (signup_for_activity s n₁ e).snd n₂ e).snd a₂.aid e
    rw [hok₂]
    refine ⟨⟨(signup_for_activity s n₁ e).snd.nextPid, e, a₂.aid⟩, ?_, rfl⟩
    apply List.mem_filter.mpr
    refine ⟨?_, by simp⟩
    exact List.mem_append_right _ (List.mem_singleton.mpr rfl)

theorem duplicate_check_scoped_per_activity_witness :
    participantsOf (signup_for_activity seededStore "Chess Club" "zoe@mergington.edu").snd 8
      = participantsOf seededStore 8 ∧
    ∃ m₂,
      (signup_for_activity
        (signup_for_activity seededStore "Chess Club" "zoe@mergington.edu").snd
        "Math Club" "zoe@mergington.edu").fst = Except.ok m₂ ∧
      Enrolled (signup_for_activity
        (signup_for_activity seededStore "Chess Club" "zoe@mergington.edu").snd
        "Math Club" "zoe@mergington.edu").snd 1 "zoe@mergington.edu" ∧
      Enrolled (signup_for_activity
        (signup_for_activity seededStore "Chess Club" "zoe@mergington.edu").snd
        "Math Club" "zoe@mergington.edu").snd 8 "zoe@mergington.edu" := by
  have h := duplicate_check_scoped_per_activity seededStore "Chess Club" "Math Club"
    "zoe@mergington.edu"
    ⟨1, "Chess Club", "Learn strategies and compete in chess tournaments",
     "Fridays, 3:30 PM - 5:00 PM", 12⟩
    ⟨8, "Math Club", "Solve challenging problems and participate in math competitions",
     "Tuesdays, 3:30 PM - 4:30 PM", 10⟩
    ("Signed up " ++ "zoe@mergington.edu" ++ " for " ++ "Chess Club")
    (by rfl) (by rfl) (by decide) (by rfl)
  exact ⟨h.1, h.2 (by decide) (by decide)⟩

end Mergington
